import Mathlib

/-!
Verification of the AI tutor backend relay (main.py).

The development shallowly embeds the request handler of the repository:
input validation and normalisation, the instructional prompt template,
the per-attachment processing loop, the remote-upload helper with its
bounded polling loop, the SSE stream relay with its graceful partial
failure behaviour, and the best-effort cleanup of remote file handles.

External collaborators (the Python standard library and the remote
model service) are modelled as explicit oracles passed into the
embedded functions:
  - Codec.b64decode models base64.b64decode (which may raise);
  - Codec.utf8decodeReplace models bytes.decode with replacement,
    which is total (it never raises);
  - FileOracle.uploadRes models the result of client.files.upload;
  - FileOracle.getSeq models the sequence of client.files.get results
    observed by the polling loop;
  - FileOracle.inlineRes models whether types.Part.from_bytes raises
    for the bytes of that attachment;
  - the stream oracle (an Except value holding a list of StreamStep)
    models client.models.generate_content_stream and the successive
    outcomes of pulling the next chunk from it.

Python string builtins used by the handler (strip, upper, lower and
the substring test of the in operator) are modelled as executable
character list functions below.  Bytes are modelled as List Nat.
-/

/- ===== Modelled Python string builtins ===== -/

/-- Whitespace characters stripped by the Python str.strip builtin
(ASCII fragment). -/
def isSpaceChar (c : Char) : Bool :=
  c = ' ' || c = '\t' || c = '\n' || c = '\x0d' || c = '\x0b' || c = '\x0c'

/-- Model of the Python str.strip builtin. -/
def pyStrip (s : String) : String :=
  ⟨((s.data.dropWhile isSpaceChar).reverse.dropWhile isSpaceChar).reverse⟩

/-- Model of the Python str.upper builtin (ASCII). -/
def pyUpper (s : String) : String := ⟨s.data.map Char.toUpper⟩

/-- Model of the Python str.lower builtin (ASCII). -/
def pyLower (s : String) : String := ⟨s.data.map Char.toLower⟩

/-- Model of the Python expression (x or d) for an optional string x:
None and the empty string are falsy and select the default d. -/
def orDefault : Option String → String → String
  | none, d => d
  | some s, d => if s = "" then d else s

/-- pat is a leading segment of l. -/
def listHasPre : List Char → List Char → Bool
  | [], _ => true
  | _ :: _, [] => false
  | p :: ps, c :: cs => p = c && listHasPre ps cs

/-- pat occurs contiguously somewhere inside l
(model of the Python substring in operator). -/
def listContains (pat : List Char) : List Char → Bool
  | [] => pat.isEmpty
  | c :: cs => listHasPre pat (c :: cs) || listContains pat cs

/-- The string pat occurs contiguously inside s. -/
def strContainsSub (s pat : String) : Bool := listContains pat.data s.data

/-- Model of the Python expression "; ".join(l). -/
def joinSemicolon : List String → String
  | [] => ""
  | [s] => s
  | s :: t :: rest => s ++ "; " ++ joinSemicolon (t :: rest)

/- ===== Data model ===== -/

/-- One unit of model input sent to the remote service
(types.Part in the source). -/
inductive ContentPart where
  | from_uri (uri : String) (mime_type : String)
  | from_bytes (data : List Nat) (mime_type : String)
  | from_text (text : String)
deriving DecidableEq

/-- A remote file object as returned by the upload and get calls of
the remote file store: its uri, its name (the handle used for get and
delete calls) and the name of its processing state. -/
structure RemoteFile where
  uri : String
  name : String
  state : String
deriving DecidableEq

/-- One entry of the files array of the request payload:
a JSON object whose keys name, mimeType and base64 may be absent. -/
structure FileEntry where
  name : Option String
  mimeType : Option String
  base64 : Option String
deriving DecidableEq

/-- Oracle for the external outcomes attached to one file entry. -/
structure FileOracle where
  uploadRes : Except String RemoteFile
  getSeq : Nat → RemoteFile
  inlineRes : Except String Unit

/-- Oracles for the Python standard library codecs used per request. -/
structure Codec where
  b64decode : String → Except String (List Nat)
  utf8decodeReplace : List Nat → String

/-- Mutable request-local state of the attachment loop of ask_question:
contents, uploaded_file_uris and file_errors are the three lists the
loop appends to, prompt_text is the prompt being extended, and
upload_calls records every remote upload attempted (for the claim that
rejected requests make no remote call). -/
structure ProcState where
  contents : List ContentPart
  uploaded_file_uris : List String
  file_errors : List String
  prompt_text : String
  upload_calls : List String
deriving DecidableEq

/-- HTTPException raised by the handler: status code and detail. -/
structure HTTPException where
  status_code : Nat
  detail : String
deriving DecidableEq

/-- The data assembled by a successful run of ask_question before the
streaming response is returned. -/
structure AskResponse where
  model_name : String
  contents : List ContentPart
  uploaded_file_uris : List String
  file_errors : List String
  prompt_text : String
  upload_calls : List String
deriving DecidableEq

/- ===== Config constants (main.py lines 36-43) ===== -/

/-- ALLOWED_BOARDS of the source (a set; modelled as a list). -/
def ALLOWED_BOARDS : List String := ["ICSE", "CBSE", "SSLC"]

/-- SUPPORTED_MIME_TYPES of the source. -/
def SUPPORTED_MIME_TYPES : List String :=
  ["image/jpeg", "image/png", "image/gif", "image/webp",
   "application/pdf",
   "text/plain"]

/- ===== upload_file_to_gemini (main.py lines 73-108) ===== -/

/-- max_attempts of the polling loop in upload_file_to_gemini. -/
def max_attempts : Nat := 30

/-- The polling loop of upload_file_to_gemini: check the state of the
current file object; return on ACTIVE, raise on FAILED, otherwise
refresh via the next get call; when the attempt bound is exhausted,
raise the timeout error.  getSeq i is the result of the i-th
client.files.get call. -/
def pollFile (getSeq : Nat → RemoteFile) (name : String) :
    RemoteFile → Nat → Nat → Except String (String × String)
  | _, _, 0 => Except.error ("File processing timeout for: " ++ name)
  | uploaded, i, fuel + 1 =>
      if uploaded.state = "ACTIVE" then Except.ok (uploaded.uri, uploaded.name)
      else if uploaded.state = "FAILED" then
        Except.error ("File processing failed: " ++ name)
      else pollFile getSeq name (getSeq i) (i + 1) fuel

/-- upload_file_to_gemini: perform the upload, then poll; every
exception raised inside (upload failure, FAILED state, timeout) is
wrapped as a Failed-to-upload exception and propagated to the caller. -/
def upload_file_to_gemini (uploadRes : Except String RemoteFile)
    (getSeq : Nat → RemoteFile) (name : String) :
    Except String (String × String) :=
  match uploadRes with
  | Except.error e => Except.error ("Failed to upload " ++ name ++ ": " ++ e)
  | Except.ok uploaded =>
      match pollFile getSeq name uploaded 0 max_attempts with
      | Except.ok r => Except.ok r
      | Except.error e =>
          Except.error ("Failed to upload " ++ name ++ ": " ++ e)

/- ===== Attachment processing loop (main.py lines 224-275) ===== -/

/-- The recorded error string for an unsupported mime type. -/
def unsupportedMsg (f : FileEntry) : String :=
  "File \x27" ++ f.name.getD "file" ++ "\x27 (" ++ f.mimeType.getD "" ++
    ") is unsupported"

/-- One iteration of the for-loop over files in ask_question.
Each branch mirrors the corresponding branch of the source; the
try-except around the text/plain branch is dead code because decoding
with replacement never raises, so that branch is total here. -/
def processFile (codec : Codec) (st : ProcState)
    (fo : FileEntry × FileOracle) : ProcState :=
  let f := fo.1
  let o := fo.2
  let mime := f.mimeType.getD ""
  let b64 := f.base64.getD ""
  let name := f.name.getD "file"
  if b64 = "" ∨ mime = "" then st
  else if mime ∉ SUPPORTED_MIME_TYPES then
    { st with file_errors := st.file_errors ++ [unsupportedMsg f] }
  else
    match codec.b64decode b64 with
    | Except.error e =>
        { st with file_errors :=
            st.file_errors ++ ["Could not decode \x27" ++ name ++ "\x27: " ++ e] }
    | Except.ok raw_bytes =>
        if mime = "application/pdf" then
          match upload_file_to_gemini o.uploadRes o.getSeq name with
          | Except.ok (uri, file_name) =>
              { st with
                  contents := st.contents ++ [ContentPart.from_uri uri "application/pdf"],
                  uploaded_file_uris := st.uploaded_file_uris ++ [file_name],
                  upload_calls := st.upload_calls ++ [name] }
          | Except.error e =>
              match o.inlineRes with
              | Except.ok _ =>
                  { st with
                      contents := st.contents ++ [ContentPart.from_bytes raw_bytes mime],
                      upload_calls := st.upload_calls ++ [name] }
              | Except.error _ =>
                  { st with
                      file_errors := st.file_errors ++
                        ["Could not process PDF \x27" ++ name ++ "\x27: " ++ e],
                      upload_calls := st.upload_calls ++ [name] }
        else if mime = "text/plain" then
          { st with prompt_text := st.prompt_text ++
              "\n\n--- Content of " ++ name ++ " ---\n" ++
              codec.utf8decodeReplace raw_bytes ++
              "\n--- End of " ++ name ++ " ---" }
        else
          match o.inlineRes with
          | Except.ok _ =>
              { st with contents := st.contents ++ [ContentPart.from_bytes raw_bytes mime] }
          | Except.error e =>
              { st with file_errors := st.file_errors ++
                  ["Could not process image \x27" ++ name ++ "\x27: " ++ e] }

/-- The for-loop over all files. -/
def processFiles (codec : Codec) (st : ProcState)
    (files : List (FileEntry × FileOracle)) : ProcState :=
  files.foldl (processFile codec) st

/- ===== The prompt template (main.py lines 145-215) ===== -/

/-- The f-string prompt template of ask_question. -/
def prompt_template (board class_level subject chapter question : String) :
    String :=
  "\nYou are an expert " ++ board ++ " Class " ++ class_level ++
  " teacher.\n\nBoard: " ++ board ++ "\nSubject: " ++ subject ++
  "\nChapter: " ++ chapter ++ "\n\nA student from Class " ++ class_level ++
  " has asked the following question:\n\n\"\"\"" ++ question ++
  ("\"\"\"\n\nYour task is to answer strictly according to the " ++ board ++
   " syllabus and exam pattern.\n\nREQUIREMENTS:\n- Explain the concept clearly and correctly.\n- Use only " ++
   board ++ " Class " ++ class_level ++
   " level methods.\n- Show all important steps and working where required (Maths, Physics, Chemistry).\n- Keep the explanation concise but conceptually strong.\n- Mention a common mistake ONLY if it is relevant.\n- Focus on how answers are expected in board exams.\n\nSTRICT ANSWERING RULES (VERY IMPORTANT):\n\n1. Use PLAIN TEXT ONLY.\n   - NO Markdown, NO HTML, NO LaTeX, NO emojis\n\n2. Allowed mathematical symbols ONLY:\n   - Degrees: 30°\n   - Fractions: 1/2\n   - Equals sign: =\n   - Plus or minus: + −\n   - Square root: √\n\n3. Write mathematics in NORMAL SCHOOL STYLE.\n   Example: sin 30° = 1/2\n\n4. Keep the answer:\n   - SHORT\n   - CLEAR\n   - CONCEPTUALLY DEEP\n   - STRICTLY exam-oriented\n\n5. IMPORTANT HIGHLIGHTING RULES:\n   - Highlight important formulas, definitions, or final answers\n   - Use ONLY SINGLE ASTERISKS like *this*\n   - NEVER use double asterisks **\n   - The MAIN FINAL RESULT must be inside single asterisks\n\n6. Language must be:\n   - Simple\n   - Calm\n   - Clear\n   - Suitable for Class " ++
   class_level ++
   " students\n\n7. While giving output, be friendly and conversational with students.\n\n8. BOARD ALIGNMENT: Answer ONLY what is officially taught at Class " ++
   class_level ++ " level for " ++ board ++
   ".\n\n9. EXAM ANSWER EXPECTATION: Frame the answer exactly how a board examiner expects it.\n\n10. STEP MARKING AWARENESS: Write steps in the correct logical order used for marking.\n\n11. DEFINITIONS RULE: Start with the exact definition in simple board language.\n\n12. FILE / IMAGE RULES:\n    - If an image is attached, carefully read and analyse it\n    - If it\x27s a question paper, solve ALL visible questions step by step\n    - If it\x27s a diagram, explain what it shows in exam-appropriate language\n    - If it\x27s a PDF, treat it as a document and answer based on its content\n    - Always relate file content back to " ++
   board ++ " Class " ++ class_level ++ " " ++ subject ++ " syllabus\n")

/- ===== ask_question (main.py lines 113-278) ===== -/

/-- The request payload of POST /api/ask; absent or JSON-null fields
are modelled as none. Each attachment is paired with the oracle of the
external outcomes for it. -/
structure Payload where
  board : Option String
  class_level : Option String
  subject : Option String
  chapter : Option String
  question : Option String
  model : Option String
  files : Option (List (FileEntry × FileOracle))

/-- board = (payload.get("board") or "ICSE").strip().upper() -/
def normBoard (p : Payload) : String :=
  pyUpper (pyStrip (orDefault p.board "ICSE"))

/-- question = (payload.get("question") or "").strip() -/
def normQuestion (p : Payload) : String :=
  pyStrip (orDefault p.question "")

/-- files = payload.get("files") or [] -/
def payloadFiles (p : Payload) : List (FileEntry × FileOracle) :=
  p.files.getD []

/-- model_choice = (payload.get("model") or "t1").lower() -/
def model_choice_of (p : Payload) : String :=
  pyLower (orDefault p.model "t1")

/-- The model identifier selected from model_choice. -/
def model_name_of (p : Payload) : String :=
  if model_choice_of p = "t2" then "gemini-3-flash-preview"
  else "gemini-2.5-flash-lite"

/-- The default analysis prompt substituted when no question text but
at least one file is present. -/
def default_question : String :=
  "Please analyse this and answer any questions based on it."

/-- The question text after the default-substitution step. -/
def effectiveQuestion (p : Payload) : String :=
  if normQuestion p = "" ∧ (payloadFiles p).isEmpty = false then default_question
  else normQuestion p

/-- The initial loop state of ask_question: empty contents, handle and
error lists, and the rendered prompt template. -/
def initState (p : Payload) : ProcState :=
  { contents := []
    uploaded_file_uris := []
    file_errors := []
    prompt_text := prompt_template (normBoard p)
      (pyStrip (orDefault p.class_level "10"))
      (pyStrip (orDefault p.subject "General"))
      (pyStrip (orDefault p.chapter "General"))
      (effectiveQuestion p)
    upload_calls := [] }

/-- The prompt text after the attachment loop and the error summary
note (main.py lines 273-275). -/
def finalPrompt (codec : Codec) (p : Payload) : String :=
  let st := processFiles codec (initState p) (payloadFiles p)
  if st.file_errors.isEmpty = true then st.prompt_text
  else st.prompt_text ++ "\n\n[Note: Some files could not be processed: " ++
    joinSemicolon st.file_errors ++ "]"

/-- The data assembled by a successful run of the handler: the loop
results plus the final prompt, which is also appended as the last text
Content Part (main.py line 278). -/
def buildResponse (codec : Codec) (p : Payload) : AskResponse :=
  let st := processFiles codec (initState p) (payloadFiles p)
  { model_name := model_name_of p
    contents := st.contents ++ [ContentPart.from_text (finalPrompt codec p)]
    uploaded_file_uris := st.uploaded_file_uris
    file_errors := st.file_errors
    prompt_text := finalPrompt codec p
    upload_calls := st.upload_calls }

/-- The body of the /api/ask handler up to the construction of the
streaming response: validation, normalisation, prompt rendering, the
attachment loop, the error summary note and the final text part. -/
def ask_question (codec : Codec) (p : Payload) :
    Except HTTPException AskResponse :=
  if normBoard p ∉ ALLOWED_BOARDS then
    Except.error { status_code := 400, detail := "Invalid board" }
  else if normQuestion p = "" ∧ (payloadFiles p).isEmpty = true then
    Except.error { status_code := 400, detail := "Question or file required" }
  else Except.ok (buildResponse codec p)

/-- The remote upload calls performed by a run of ask_question; a run
that raises an HTTPException raises it before the attachment loop, so
it performs none. -/
def remote_calls_of (r : Except HTTPException AskResponse) : List String :=
  match r with
  | Except.ok resp => resp.upload_calls
  | Except.error _ => []

/- ===== The stream relay (main.py lines 283-333) ===== -/

/-- Outcome of one pull of the next chunk from the remote stream:
a chunk object whose text attribute may be None, a StopIteration, or
any other exception carrying a message.  The end of the list models
the exhaustion sentinel (next returning None). -/
inductive StreamStep where
  | chunk (text : Option String)
  | stopIter
  | raiseErr (msg : String)
deriving DecidableEq

/-- The server-sent events emitted to the client: a data frame
carrying one text fragment, the terminal end event, or the terminal
error event carrying a message. -/
inductive SSE where
  | data (text : String)
  | endEvent
  | errorEvent (msg : String)
deriving DecidableEq

/-- The classification of a stream error message performed in the
outer except block: quota-related, then API-key related, else the raw
message. -/
def classify_stream_error (error_msg : String) : String :=
  if strContainsSub (pyLower error_msg) "quota" then
    "API quota exceeded. Please try again later."
  else if strContainsSub (pyLower error_msg) "api key" then
    "API configuration error. Please contact support."
  else error_msg

/-- The while-loop of the stream generator, parameterised by the
current chunk_count.  A chunk with non-empty text is forwarded as a
data frame; an exception with chunk_count = 0 is re-raised and caught
by the outer except block, which emits the classified error event; an
exception with chunk_count > 0 just breaks the loop, after which the
end event is emitted. -/
def relayLoop (chunk_count : Nat) : List StreamStep → List SSE
  | [] => [SSE.endEvent]
  | StreamStep.chunk t :: rest =>
      let text := orDefault t ""
      if text = "" then relayLoop chunk_count rest
      else SSE.data text :: relayLoop (chunk_count + 1) rest
  | StreamStep.stopIter :: _ => [SSE.endEvent]
  | StreamStep.raiseErr msg :: _ =>
      if chunk_count = 0 then [SSE.errorEvent (classify_stream_error msg)]
      else [SSE.endEvent]

/-- The stream generator: a failure of the generate call itself is
caught by the outer except block; otherwise the relay loop runs with
chunk_count = 0. -/
def stream (gen : Except String (List StreamStep)) : List SSE :=
  match gen with
  | Except.error e => [SSE.errorEvent (classify_stream_error e)]
  | Except.ok steps => relayLoop 0 steps

/-- The finally block of the stream generator: one delete call per
recorded handle, in order; a failing delete (delOk h = false) is
swallowed by the bare except and the loop continues with the next
handle.  The returned list is the sequence of delete calls issued. -/
def runCleanup (delOk : String → Bool) : List String → List String
  | [] => []
  | file_name :: rest =>
      if delOk file_name then file_name :: runCleanup delOk rest
      else file_name :: runCleanup delOk rest

/-- One item of the observable trace of the stream generator: an SSE
frame sent to the client or a delete call sent to the remote store. -/
inductive TraceItem where
  | sse (e : SSE)
  | deleteCall (file_name : String)
deriving DecidableEq

/-- The full observable trace of the stream generator: all SSE frames,
then (from the finally block) all delete calls. -/
def streamTrace (gen : Except String (List StreamStep))
    (handles : List String) (delOk : String → Bool) : List TraceItem :=
  (stream gen).map TraceItem.sse ++
    (runCleanup delOk handles).map TraceItem.deleteCall

/-- The text fragments of a list of stream steps that the relay loop
forwards: the non-empty texts of its chunk steps. -/
def forwardedTexts (steps : List StreamStep) : List String :=
  steps.filterMap fun s =>
    match s with
    | StreamStep.chunk t => if orDefault t "" = "" then none else some (orDefault t "")
    | _ => none

/- ===== Lemmas about the relay loop ===== -/

/-- Once at least one fragment has been forwarded (positive
chunk_count), the relay loop can no longer emit an error event. -/
theorem relayLoop_no_error_of_pos (steps : List StreamStep) :
    ∀ (n : Nat) (m : String), n ≠ 0 → SSE.errorEvent m ∉ relayLoop n steps := by
  induction steps with
  | nil => intro n m _; simp [relayLoop]
  | cons s rest ih =>
      intro n m hn
      cases s with
      | chunk t =>
          simp only [relayLoop]
          by_cases ht : orDefault t "" = ""
          · rw [if_pos ht]
            exact ih n m hn
          · rw [if_neg ht]
            intro hmem
            rcases List.mem_cons.mp hmem with h | h
            · cases h
            · exact ih (n + 1) m (Nat.succ_ne_zero n) h
      | stopIter => simp [relayLoop]
      | raiseErr msg => simp [relayLoop, hn]

/-- If the relay (started at chunk_count = 0) ever emits an error
event, then that error event is the whole emitted sequence. -/
theorem relayLoop_error_eq (steps : List StreamStep) (m : String)
    (h : SSE.errorEvent m ∈ relayLoop 0 steps) :
    relayLoop 0 steps = [SSE.errorEvent m] := by
  induction steps with
  | nil => simp [relayLoop] at h
  | cons s rest ih =>
      cases s with
      | chunk t =>
          simp only [relayLoop] at h ⊢
          by_cases ht : orDefault t "" = ""
          · rw [if_pos ht] at h ⊢
            exact ih h
          · rw [if_neg ht] at h ⊢
            rcases List.mem_cons.mp h with h' | h'
            · cases h'
            · exact absurd h' (relayLoop_no_error_of_pos rest 1 m one_ne_zero)
      | stopIter => simp [relayLoop] at h
      | raiseErr msg =>
          have heq : relayLoop 0 (StreamStep.raiseErr msg :: rest) =
              [SSE.errorEvent (classify_stream_error msg)] := by
            simp [relayLoop]
          rw [heq] at h ⊢
          rw [List.mem_singleton] at h
          rw [← h]

/-- General description of the relay loop on a stream whose first
exceptional pull follows a block of ordinary chunk pulls: the
forwarded fragments are emitted as data frames, then a single terminal
frame which is the classified error event exactly when nothing was
forwarded (counting from the initial chunk_count n). -/
theorem relayLoop_chunks_then_raise (msg : String) (rest : List StreamStep) :
    ∀ (pre : List StreamStep) (n : Nat),
      (∀ s ∈ pre, ∃ t, s = StreamStep.chunk t) →
      relayLoop n (pre ++ StreamStep.raiseErr msg :: rest) =
        (forwardedTexts pre).map SSE.data ++
          (if n + (forwardedTexts pre).length = 0 then
            [SSE.errorEvent (classify_stream_error msg)]
          else [SSE.endEvent]) := by
  intro pre
  induction pre with
  | nil =>
      intro n _
      simp [relayLoop, forwardedTexts]
  | cons s pre ih =>
      intro n hpre
      obtain ⟨t, hs⟩ := hpre s (List.mem_cons_self s pre)
      subst hs
      have hpre' : ∀ s ∈ pre, ∃ t, s = StreamStep.chunk t :=
        fun s hs => hpre s (List.mem_cons_of_mem _ hs)
      by_cases ht : orDefault t "" = ""
      · have hf : forwardedTexts (StreamStep.chunk t :: pre) = forwardedTexts pre := by
          simp [forwardedTexts, List.filterMap_cons, ht]
        rw [List.cons_append]
        simp only [relayLoop]
        rw [if_pos ht, hf]
        exact ih n hpre'
      · have hf : forwardedTexts (StreamStep.chunk t :: pre) =
            orDefault t "" :: forwardedTexts pre := by
          simp [forwardedTexts, List.filterMap_cons, ht]
        rw [List.cons_append]
        simp only [relayLoop]
        rw [if_neg ht, hf, ih (n + 1) hpre']
        have h1 : ¬ (n + 1 + (forwardedTexts pre).length = 0) := by omega
        have h2 : ¬ (n + (orDefault t "" :: forwardedTexts pre).length = 0) := by
          simp only [List.length_cons]
          omega
        rw [if_neg h1, if_neg h2]
        simp

/- ===== Claim theorems: stream relay ===== -/

/-- Claim C1: when the remote stream raises during fragment iteration
(after a block of ordinary chunk pulls), the relay emits the data
frames of the fragments forwarded so far followed by the end event if
at least one fragment was forwarded, and a single error event if none
was; moreover an error event can only be the whole emitted sequence,
so an error frame never follows a data frame. -/
theorem relay_failure_degrades :
    (∀ (pre rest : List StreamStep) (msg : String),
        (∀ s ∈ pre, ∃ t, s = StreamStep.chunk t) →
        relayLoop 0 (pre ++ StreamStep.raiseErr msg :: rest) =
          if (forwardedTexts pre).length = 0 then
            [SSE.errorEvent (classify_stream_error msg)]
          else (forwardedTexts pre).map SSE.data ++ [SSE.endEvent]) ∧
    (∀ (gen : Except String (List StreamStep)) (m : String),
        SSE.errorEvent m ∈ stream gen → stream gen = [SSE.errorEvent m]) ∧
    (∀ (gen : Except String (List StreamStep)) (i j : Nat) (d m : String),
        i < j → (stream gen).get? i = some (SSE.data d) →
        (stream gen).get? j ≠ some (SSE.errorEvent m)) := by
  have herr : ∀ (gen : Except String (List StreamStep)) (m : String),
      SSE.errorEvent m ∈ stream gen → stream gen = [SSE.errorEvent m] := by
    intro gen m hmem
    cases gen with
    | error e =>
        simp only [stream] at hmem ⊢
        rw [List.mem_singleton] at hmem
        rw [← hmem]
    | ok steps => exact relayLoop_error_eq steps m hmem
  refine ⟨?_, herr, ?_⟩
  · intro pre rest msg hpre
    have h := relayLoop_chunks_then_raise msg rest pre 0 hpre
    by_cases hl : (forwardedTexts pre).length = 0
    · rw [if_pos hl, h, if_pos (by omega)]
      have : forwardedTexts pre = [] := List.length_eq_zero.mp hl
      simp [this]
    · rw [if_neg hl, h, if_neg (by omega)]
  · intro gen i j d m hij hi hj
    have heq := herr gen m (List.get?_mem hj)
    rw [heq] at hi hj
    match i, hi with
    | 0, hi => cases (Option.some_injective _ hi)
    | k + 1, hi => simp at hi

/-- Witness for C1: one forwarded fragment, then a stream failure; the
client still receives the data frame and the end event, no error. -/
theorem relay_failure_degrades_witness :
    relayLoop 0 ([StreamStep.chunk (some "hi")] ++
        StreamStep.raiseErr "boom" :: []) = [SSE.data "hi", SSE.endEvent] := by
  have h := relay_failure_degrades.1 [StreamStep.chunk (some "hi")] [] "boom"
    (by intro s hs; rw [List.mem_singleton] at hs; exact ⟨some "hi", hs⟩)
  rw [h]
  decide

/-- Claim C9: when the relay transitions to Failed (no fragment was
forwarded before the failure, or the generate call itself raised),
exactly one error event is emitted, carrying the classified message:
the quota substring yields the rate-limit notice, otherwise the api
key substring yields the configuration notice, otherwise the raw
message passes through. -/
theorem failed_error_classified :
    (∀ (pre rest : List StreamStep) (msg : String),
        (∀ s ∈ pre, ∃ t, s = StreamStep.chunk t ∧ orDefault t "" = "") →
        relayLoop 0 (pre ++ StreamStep.raiseErr msg :: rest) =
          [SSE.errorEvent (classify_stream_error msg)]) ∧
    (∀ e, stream (Except.error e) = [SSE.errorEvent (classify_stream_error e)]) ∧
    (∀ msg, strContainsSub (pyLower msg) "quota" = true →
        classify_stream_error msg = "API quota exceeded. Please try again later.") ∧
    (∀ msg, strContainsSub (pyLower msg) "quota" = false →
        strContainsSub (pyLower msg) "api key" = true →
        classify_stream_error msg = "API configuration error. Please contact support.") ∧
    (∀ msg, strContainsSub (pyLower msg) "quota" = false →
        strContainsSub (pyLower msg) "api key" = false →
        classify_stream_error msg = msg) := by
  refine ⟨?_, fun e => rfl, ?_, ?_, ?_⟩
  · intro pre rest msg hpre
    have hpre' : ∀ s ∈ pre, ∃ t, s = StreamStep.chunk t :=
      fun s hs => ⟨(hpre s hs).choose, (hpre s hs).choose_spec.1⟩
    have hf : forwardedTexts pre = [] := by
      unfold forwardedTexts
      rw [List.filterMap_eq_nil_iff]
      intro s hs
      obtain ⟨t, rfl, ht⟩ := hpre s hs
      simp [ht]
    have h := relayLoop_chunks_then_raise msg rest pre 0 hpre'
    rw [h, hf]
    simp
  · intro msg h
    simp [classify_stream_error, h]
  · intro msg h1 h2
    simp [classify_stream_error, h1, h2]
  · intro msg h1 h2
    simp [classify_stream_error, h1, h2]

/-- Witness for C9: a quota-related failure before any forwarded
fragment yields exactly the rate-limit error event. -/
theorem failed_error_classified_witness :
    relayLoop 0 ([StreamStep.chunk (some "")] ++
        StreamStep.raiseErr "429 RESOURCE_EXHAUSTED: quota exceeded" :: []) =
      [SSE.errorEvent "API quota exceeded. Please try again later."] ∧
    classify_stream_error "429 RESOURCE_EXHAUSTED: quota exceeded" =
      "API quota exceeded. Please try again later." := by
  have h3 := failed_error_classified.2.2.1 "429 RESOURCE_EXHAUSTED: quota exceeded"
    (by decide)
  have h1 := failed_error_classified.1 [StreamStep.chunk (some "")] []
    "429 RESOURCE_EXHAUSTED: quota exceeded"
    (by intro s hs; rw [List.mem_singleton] at hs; exact ⟨some "", hs, rfl⟩)
  exact ⟨by rw [h1, h3], h3⟩

/- ===== String and containment lemmas ===== -/

theorem string_data_append (s t : String) : (s ++ t).data = s.data ++ t.data := rfl

theorem str_append_empty (s : String) : s ++ "" = s := by
  apply String.ext
  rw [string_data_append]
  exact List.append_nil _

theorem str_append_assoc (s t u : String) : s ++ t ++ u = s ++ (t ++ u) := by
  apply String.ext
  simp only [string_data_append, List.append_assoc]

theorem listHasPre_append (pat l l' : List Char) (h : listHasPre pat l = true) :
    listHasPre pat (l ++ l') = true := by
  induction pat generalizing l with
  | nil => simp [listHasPre]
  | cons p ps ih =>
      cases l with
      | nil => simp [listHasPre] at h
      | cons c cs =>
          simp only [listHasPre, Bool.and_eq_true, decide_eq_true_eq,
            List.cons_append] at h ⊢
          exact ⟨h.1, ih cs h.2⟩

theorem listHasPre_self (pat l' : List Char) : listHasPre pat (pat ++ l') = true := by
  induction pat with
  | nil => simp [listHasPre]
  | cons p ps ih => simp [List.cons_append, listHasPre, ih]

theorem listContains_nil (l : List Char) : listContains [] l = true := by
  cases l with
  | nil => rfl
  | cons c cs => simp [listContains, listHasPre]

theorem listContains_append_left (pat l l' : List Char)
    (h : listContains pat l = true) : listContains pat (l ++ l') = true := by
  induction l with
  | nil =>
      have hpat : pat = [] := by
        simpa [listContains, List.isEmpty_iff] using h
      subst hpat
      simpa using listContains_nil l'
  | cons c cs ih =>
      simp only [List.cons_append, listContains, Bool.or_eq_true] at h ⊢
      rcases h with h | h
      · exact Or.inl (listHasPre_append _ _ _ h)
      · exact Or.inr (ih h)

theorem listContains_append_right (pat l l' : List Char)
    (h : listContains pat l' = true) : listContains pat (l ++ l') = true := by
  induction l with
  | nil => simpa using h
  | cons c cs ih =>
      simp only [List.cons_append, listContains, Bool.or_eq_true]
      exact Or.inr ih

theorem listContains_self_append (pat l' : List Char) :
    listContains pat (pat ++ l') = true := by
  cases pat with
  | nil => exact listContains_nil l'
  | cons p ps =>
      simp only [List.cons_append, listContains, Bool.or_eq_true]
      exact Or.inl (by simpa using listHasPre_self (p :: ps) l')

theorem strContainsSub_append_left (s t pat : String)
    (h : strContainsSub s pat = true) : strContainsSub (s ++ t) pat = true := by
  unfold strContainsSub at h ⊢
  rw [string_data_append]
  exact listContains_append_left _ _ _ h

theorem strContainsSub_append_right (s t pat : String)
    (h : strContainsSub t pat = true) : strContainsSub (s ++ t) pat = true := by
  unfold strContainsSub at h ⊢
  rw [string_data_append]
  exact listContains_append_right _ _ _ h

theorem strContainsSub_self (s : String) : strContainsSub s s = true := by
  unfold strContainsSub
  have h := listContains_self_append s.data []
  simpa using h

/-- The rendered prompt template contains the question text verbatim. -/
theorem prompt_contains_question (b c s ch q : String) :
    strContainsSub (prompt_template b c s ch q) q = true := by
  unfold prompt_template
  apply strContainsSub_append_left
  apply strContainsSub_append_right
  exact strContainsSub_self q

/-- Every element of a list occurs as a substring of its
semicolon-separated join. -/
theorem joinSemicolon_contains (e : String) :
    ∀ l : List String, e ∈ l → strContainsSub (joinSemicolon l) e = true := by
  intro l
  induction l with
  | nil => intro h; cases h
  | cons s rest ih =>
      intro h
      cases rest with
      | nil =>
          rcases List.mem_cons.mp h with h | h
          · subst h
            exact strContainsSub_self e
          · cases h
      | cons t rest2 =>
          rcases List.mem_cons.mp h with h | h
          · subst h
            show strContainsSub (e ++ "; " ++ joinSemicolon (t :: rest2)) e = true
            apply strContainsSub_append_left
            apply strContainsSub_append_left
            exact strContainsSub_self e
          · show strContainsSub (s ++ "; " ++ joinSemicolon (t :: rest2)) e = true
            apply strContainsSub_append_right
            exact ih h

/- ===== State extension lemmas for the attachment loop ===== -/

/-- One loop iteration only ever appends to the prompt text. -/
theorem processFile_prompt_ext (codec : Codec) (st : ProcState)
    (fo : FileEntry × FileOracle) :
    ∃ t, (processFile codec st fo).prompt_text = st.prompt_text ++ t := by
  simp only [processFile]
  repeat' split
  all_goals first
    | exact ⟨"", (str_append_empty _).symm⟩
    | exact ⟨_, by simp only [str_append_assoc]; rfl⟩

/-- The whole loop only ever appends to the prompt text. -/
theorem processFiles_prompt_ext (codec : Codec)
    (files : List (FileEntry × FileOracle)) :
    ∀ st : ProcState, ∃ t,
      (processFiles codec st files).prompt_text = st.prompt_text ++ t := by
  induction files with
  | nil => intro st; exact ⟨"", (str_append_empty _).symm⟩
  | cons fo rest ih =>
      intro st
      obtain ⟨t1, h1⟩ := processFile_prompt_ext codec st fo
      obtain ⟨t2, h2⟩ := ih (processFile codec st fo)
      refine ⟨t1 ++ t2, ?_⟩
      show (processFiles codec (processFile codec st fo) rest).prompt_text = _
      rw [h2, h1, str_append_assoc]

/-- One loop iteration only ever appends to the error list. -/
theorem processFile_errors_ext (codec : Codec) (st : ProcState)
    (fo : FileEntry × FileOracle) :
    ∃ t, (processFile codec st fo).file_errors = st.file_errors ++ t := by
  simp only [processFile]
  repeat' split
  all_goals first
    | exact ⟨[], (List.append_nil _).symm⟩
    | exact ⟨_, rfl⟩

/-- The whole loop only ever appends to the error list. -/
theorem processFiles_errors_ext (codec : Codec)
    (files : List (FileEntry × FileOracle)) :
    ∀ st : ProcState, ∃ t,
      (processFiles codec st files).file_errors = st.file_errors ++ t := by
  induction files with
  | nil => intro st; exact ⟨[], (List.append_nil _).symm⟩
  | cons fo rest ih =>
      intro st
      obtain ⟨t1, h1⟩ := processFile_errors_ext codec st fo
      obtain ⟨t2, h2⟩ := ih (processFile codec st fo)
      refine ⟨t1 ++ t2, ?_⟩
      show (processFiles codec (processFile codec st fo) rest).file_errors = _
      rw [h2, h1, List.append_assoc]

/-- The final prompt extends the rendered template. -/
theorem finalPrompt_ext (codec : Codec) (p : Payload) :
    ∃ t, finalPrompt codec p = (initState p).prompt_text ++ t := by
  obtain ⟨t1, h1⟩ := processFiles_prompt_ext codec (payloadFiles p) (initState p)
  simp only [finalPrompt]
  split
  · exact ⟨t1, h1⟩
  · exact ⟨t1 ++ ("\n\n[Note: Some files could not be processed: " ++
      (joinSemicolon (processFiles codec (initState p) (payloadFiles p)).file_errors
        ++ "]")),
      by rw [h1]; simp only [str_append_assoc]⟩

/-- The final prompt contains the effective question text. -/
theorem finalPrompt_contains_question (codec : Codec) (p : Payload) :
    strContainsSub (finalPrompt codec p) (effectiveQuestion p) = true := by
  obtain ⟨t, ht⟩ := finalPrompt_ext codec p
  rw [ht]
  apply strContainsSub_append_left
  exact prompt_contains_question (normBoard p) (pyStrip (orDefault p.class_level "10"))
    (pyStrip (orDefault p.subject "General")) (pyStrip (orDefault p.chapter "General"))
    (effectiveQuestion p)

/-- Every delete call of the finally block is issued whatever the
outcomes of the individual deletes are. -/
theorem runCleanup_eq (delOk : String → Bool) :
    ∀ handles : List String, runCleanup delOk handles = handles := by
  intro handles
  induction handles with
  | nil => rfl
  | cons h rest ih =>
      simp only [runCleanup]
      split <;> rw [ih]

/- ===== Claim theorems: cleanup and validation ===== -/

/-- Claim C2: after the stream terminates (whatever its outcome), the
finally block issues exactly one delete call for every remote file
handle acquired by the request, all of them after every SSE frame, and
the trace does not depend on the success of the individual delete
calls (failures are swallowed); each loop iteration acquires at most
one handle (exactly one per successful upload). -/
theorem remote_handles_deleted_once (codec : Codec) (p : Payload)
    (r : AskResponse) (gen : Except String (List StreamStep))
    (delOk : String → Bool)
    (hok : ask_question codec p = Except.ok r) :
    streamTrace gen r.uploaded_file_uris delOk =
      (stream gen).map TraceItem.sse ++
        r.uploaded_file_uris.map TraceItem.deleteCall ∧
    (∀ h, (streamTrace gen r.uploaded_file_uris delOk).count
        (TraceItem.deleteCall h) = r.uploaded_file_uris.count h) ∧
    (∀ (st : ProcState) (fo : FileEntry × FileOracle),
        (processFile codec st fo).uploaded_file_uris = st.uploaded_file_uris ∨
        ∃ fn, (processFile codec st fo).uploaded_file_uris =
          st.uploaded_file_uris ++ [fn]) := by
  have htr : streamTrace gen r.uploaded_file_uris delOk =
      (stream gen).map TraceItem.sse ++
        r.uploaded_file_uris.map TraceItem.deleteCall := by
    unfold streamTrace
    rw [runCleanup_eq]
  refine ⟨htr, ?_, ?_⟩
  · intro h
    rw [htr, List.count_append]
    have h0 : ((stream gen).map TraceItem.sse).count (TraceItem.deleteCall h) = 0 := by
      rw [List.count_eq_zero]
      simp
    rw [h0, Nat.zero_add]
    exact List.count_map_of_injective _ _ (fun a b hab => by injection hab) h
  · intro st fo
    simp only [processFile]
    repeat' split
    all_goals first
      | exact Or.inl rfl
      | exact Or.inr ⟨_, rfl⟩

/-- Concrete codec oracle: decoding always succeeds. -/
def codecW : Codec := ⟨fun _ => Except.ok [1, 2], fun _ => ""⟩

/-- Concrete file oracle: upload succeeds and is immediately ACTIVE. -/
def oracleW : FileOracle :=
  ⟨Except.ok ⟨"gs://files/abc", "files/abc", "ACTIVE"⟩,
   fun _ => ⟨"", "", ""⟩, Except.ok ()⟩

def fileW : FileEntry := ⟨some "doc.pdf", some "application/pdf", some "JVBERi0="⟩

def payloadW : Payload :=
  ⟨some "ICSE", some "10", some "Maths", some "Algebra", some "Solve it",
   none, some [(fileW, oracleW)]⟩

def respW : AskResponse :=
  (ask_question codecW payloadW).toOption.getD ⟨"", [], [], [], "", []⟩

/-- Witness for C2: a request that uploads one PDF; after the stream
(one data frame, then normal end) exactly one delete call for the
acquired handle follows the SSE frames, although its delete fails. -/
theorem remote_handles_deleted_once_witness :
    streamTrace (Except.ok [StreamStep.chunk (some "ans")])
        respW.uploaded_file_uris (fun _ => false) =
      [TraceItem.sse (SSE.data "ans"), TraceItem.sse SSE.endEvent,
       TraceItem.deleteCall "files/abc"] := by
  have h := (remote_handles_deleted_once codecW payloadW respW
      (Except.ok [StreamStep.chunk (some "ans")]) (fun _ => false) (by rfl)).1
  rw [h]
  rfl

/-- Trivial codec oracle for witnesses with no attachments. -/
def codecTriv : Codec := ⟨fun _ => Except.ok [], fun _ => ""⟩

/-- Claim C3 (amended): for every payload whose board field, after the
default for absent or empty values (ICSE), stripping whitespace and
uppercasing, is not in the allowed board set, the handler fails with
HTTP 400 Invalid board and performs no remote upload call. -/
theorem invalid_board_rejected (codec : Codec) (p : Payload)
    (hb : normBoard p ∉ ALLOWED_BOARDS) :
    ask_question codec p = Except.error ⟨400, "Invalid board"⟩ ∧
    remote_calls_of (ask_question codec p) = [] := by
  have h : ask_question codec p = Except.error ⟨400, "Invalid board"⟩ := by
    unfold ask_question
    rw [if_pos hb]
  exact ⟨h, by rw [h]; rfl⟩

def payloadBadBoard : Payload :=
  ⟨some "STATE", none, none, none, some "hello", none, none⟩

/-- Witness for C3 (amended): the board STATE is rejected with 400 and
no remote call is made. -/
theorem invalid_board_rejected_witness :
    ask_question codecTriv payloadBadBoard = Except.error ⟨400, "Invalid board"⟩ ∧
    remote_calls_of (ask_question codecTriv payloadBadBoard) = [] :=
  invalid_board_rejected codecTriv payloadBadBoard (by decide)

def payloadEmptyBoard : Payload :=
  ⟨some "", none, none, none, some "What is gravity?", none, none⟩

/-- Counterexample to C3 as stated: the empty board field strips and
uppercases to a string outside the allowed set, yet the request is not
rejected, because the handler replaces a falsy board field by the
default ICSE before validating. -/
theorem board_empty_passes_validation :
    payloadEmptyBoard.board = some "" ∧
    (pyUpper (pyStrip "") ∈ ALLOWED_BOARDS → False) ∧
    (∀ e, ask_question codecTriv payloadEmptyBoard ≠ Except.error e) := by
  have h3 : ask_question codecTriv payloadEmptyBoard =
      Except.ok (buildResponse codecTriv payloadEmptyBoard) := by rfl
  refine ⟨rfl, by decide, fun e hc => ?_⟩
  rw [h3] at hc
  cases hc

/-- Claim C10: an absent, null or empty board field is replaced by the
default ICSE before validation, so such a request is never rejected
with the Invalid board error; and any model field whose lowercased
value is not t2 (in particular an absent field) selects the default
model identifier. -/
theorem defaults_applied :
    (∀ (codec : Codec) (p : Payload), p.board = none ∨ p.board = some "" →
        normBoard p = "ICSE" ∧
        ask_question codec p ≠ Except.error ⟨400, "Invalid board"⟩) ∧
    (∀ p : Payload, model_choice_of p ≠ "t2" →
        model_name_of p = "gemini-2.5-flash-lite") ∧
    (∀ p : Payload, p.model = none →
        model_name_of p = "gemini-2.5-flash-lite") := by
  refine ⟨?_, ?_, ?_⟩
  · intro codec p hb
    have hnb : normBoard p = "ICSE" := by
      unfold normBoard
      rcases hb with h | h <;> rw [h] <;> decide
    refine ⟨hnb, ?_⟩
    unfold ask_question
    rw [hnb]
    have hc1 : ¬ (("ICSE" : String) ∉ ALLOWED_BOARDS) := by decide
    rw [if_neg hc1]
    split
    · intro hc
      injection hc with h400
      injection h400 with _ hdetail
      exact absurd hdetail (by decide)
    · intro hc
      cases hc
  · intro p hm
    unfold model_name_of
    rw [if_neg hm]
  · intro p hm
    unfold model_name_of model_choice_of
    rw [hm]
    decide

def payloadDefaults : Payload :=
  ⟨none, none, none, none, some "Define force.", some "T9", none⟩

/-- Witness for C10: absent board and a model tag other than t2. -/
theorem defaults_applied_witness :
    normBoard payloadDefaults = "ICSE" ∧
    ask_question codecTriv payloadDefaults ≠ Except.error ⟨400, "Invalid board"⟩ ∧
    model_name_of payloadDefaults = "gemini-2.5-flash-lite" := by
  have h1 := defaults_applied.1 codecTriv payloadDefaults (Or.inl rfl)
  have h2 := defaults_applied.2.1 payloadDefaults (by decide)
  exact ⟨h1.1, h1.2, h2⟩

/-- Claim C4: a payload with an empty (or whitespace-only) question
and an empty file list is rejected with an HTTP 400 error; a payload
with an empty question but a non-empty file list (and a valid board,
so that the request reaches the question check) proceeds, and its
composed prompt contains the default analysis sentence in place of the
question. -/
theorem missing_input_rules :
    (∀ (codec : Codec) (p : Payload),
        normQuestion p = "" → (payloadFiles p).isEmpty = true →
        ∃ d, ask_question codec p = Except.error ⟨400, d⟩) ∧
    (∀ (codec : Codec) (p : Payload),
        normBoard p ∈ ALLOWED_BOARDS →
        normQuestion p = "" → (payloadFiles p).isEmpty = false →
        ∃ r, ask_question codec p = Except.ok r ∧
          strContainsSub r.prompt_text default_question = true) := by
  constructor
  · intro codec p hq hf
    unfold ask_question
    by_cases hb : normBoard p ∉ ALLOWED_BOARDS
    · rw [if_pos hb]
      exact ⟨"Invalid board", rfl⟩
    · rw [if_neg hb, if_pos ⟨hq, hf⟩]
      exact ⟨"Question or file required", rfl⟩
  · intro codec p hb hq hf
    have hnot1 : ¬ (normBoard p ∉ ALLOWED_BOARDS) := fun hn => hn hb
    have hnot2 : ¬ (normQuestion p = "" ∧ (payloadFiles p).isEmpty = true) := by
      intro hc
      rw [hf] at hc
      exact Bool.false_ne_true hc.2
    have hok : ask_question codec p = Except.ok (buildResponse codec p) := by
      unfold ask_question
      rw [if_neg hnot1, if_neg hnot2]
    have heffq : effectiveQuestion p = default_question := by
      unfold effectiveQuestion
      rw [hq, hf]
      simp
    refine ⟨buildResponse codec p, hok, ?_⟩
    have hpt : (buildResponse codec p).prompt_text = finalPrompt codec p := rfl
    rw [hpt]
    have h := finalPrompt_contains_question codec p
    rw [heffq] at h
    exact h

/-- Oracle for an image attachment that inlines successfully. -/
def oracleImg : FileOracle :=
  ⟨Except.error "unused", fun _ => ⟨"", "", ""⟩, Except.ok ()⟩

def payloadOnlyFiles : Payload :=
  ⟨some "CBSE", none, none, none, none, none,
   some [(⟨some "pic.png", some "image/png", some "AAAA"⟩, oracleImg)]⟩

def payloadNothing : Payload :=
  ⟨some "CBSE", none, none, none, some "   ", none, some []⟩

/-- Witness for C4: a whitespace question with no files yields 400; no
question with one image file proceeds and the prompt carries the
default analysis sentence. -/
theorem missing_input_rules_witness :
    (∃ d, ask_question codecTriv payloadNothing = Except.error ⟨400, d⟩) ∧
    (∃ r, ask_question codecTriv payloadOnlyFiles = Except.ok r ∧
        strContainsSub r.prompt_text default_question = true) :=
  ⟨missing_input_rules.1 codecTriv payloadNothing (by decide) rfl,
   missing_input_rules.2 codecTriv payloadOnlyFiles (by decide) (by decide) rfl⟩

/- ===== Per-branch lemmas for the attachment loop ===== -/

theorem processFiles_append (codec : Codec) (st : ProcState)
    (l1 l2 : List (FileEntry × FileOracle)) :
    processFiles codec st (l1 ++ l2) =
      processFiles codec (processFiles codec st l1) l2 := by
  unfold processFiles
  rw [List.foldl_append]

/-- An attachment with a non-empty payload and a non-empty unsupported
mime type only appends its error string; contents, handles and prompt
are untouched and the loop moves on. -/
theorem processFile_unsupported (codec : Codec) (st : ProcState)
    (f : FileEntry) (o : FileOracle)
    (hb64 : ¬ (f.base64.getD "" = ""))
    (hm0 : ¬ (f.mimeType.getD "" = ""))
    (hm : f.mimeType.getD "" ∉ SUPPORTED_MIME_TYPES) :
    processFile codec st (f, o) =
      { st with file_errors := st.file_errors ++ [unsupportedMsg f] } := by
  simp only [processFile]
  rw [if_neg (fun hc => hc.elim hb64 hm0), if_pos hm]

/-- A text/plain attachment with a non-empty decodable payload splices
its decoded text into the prompt and changes nothing else. -/
theorem processFile_text_plain (codec : Codec) (st : ProcState)
    (f : FileEntry) (o : FileOracle) (raw : List Nat)
    (hm : f.mimeType.getD "" = "text/plain")
    (hb64 : ¬ (f.base64.getD "" = ""))
    (hdec : codec.b64decode (f.base64.getD "") = Except.ok raw) :
    processFile codec st (f, o) =
      { st with prompt_text := st.prompt_text ++
          "\n\n--- Content of " ++ f.name.getD "file" ++ " ---\n" ++
          codec.utf8decodeReplace raw ++
          "\n--- End of " ++ f.name.getD "file" ++ " ---" } := by
  simp only [processFile]
  rw [hm]
  rw [if_neg (fun hc => hc.elim hb64 (fun h => absurd h (by decide)))]
  rw [if_neg (show ¬ (("text/plain" : String) ∉ SUPPORTED_MIME_TYPES) by decide)]
  rw [hdec]
  rfl

/-- A PDF attachment whose upload helper fails (for any reason) takes
the fallback branch selected by the inline oracle. -/
theorem processFile_pdf_upload_error (codec : Codec) (st : ProcState)
    (f : FileEntry) (o : FileOracle) (raw : List Nat) (e : String)
    (hm : f.mimeType.getD "" = "application/pdf")
    (hb64 : ¬ (f.base64.getD "" = ""))
    (hdec : codec.b64decode (f.base64.getD "") = Except.ok raw)
    (hup : upload_file_to_gemini o.uploadRes o.getSeq (f.name.getD "file") =
      Except.error e) :
    processFile codec st (f, o) =
      (match o.inlineRes with
       | Except.ok _ =>
           { st with
               contents := st.contents ++ [ContentPart.from_bytes raw "application/pdf"]
               upload_calls := st.upload_calls ++ [f.name.getD "file"] }
       | Except.error _ =>
           { st with
               file_errors := st.file_errors ++
                 ["Could not process PDF \x27" ++ f.name.getD "file" ++ "\x27: " ++ e]
               upload_calls := st.upload_calls ++ [f.name.getD "file"] }) := by
  simp only [processFile]
  rw [hm]
  rw [if_neg (fun hc => hc.elim hb64 (fun h => absurd h (by decide)))]
  rw [if_neg (show ¬ (("application/pdf" : String) ∉ SUPPORTED_MIME_TYPES) by decide)]
  rw [hdec, hup]
  cases o.inlineRes <;> rfl

/- ===== Claim theorems: attachment processing ===== -/

/-- Claim C5 (amended): for every attachment with a NON-EMPTY PAYLOAD
whose mime type is non-empty but unsupported, the request is not
aborted: the error string naming the file is recorded, the iteration
changes nothing else (processing continues with the remaining
attachments), and the final prompt contains the summary note naming
that file as unsupported. -/
theorem unsupported_mime_recorded (codec : Codec) (p : Payload)
    (pre post : List (FileEntry × FileOracle)) (f : FileEntry) (o : FileOracle)
    (hb : normBoard p ∈ ALLOWED_BOARDS)
    (hfiles : payloadFiles p = pre ++ (f, o) :: post)
    (hb64 : ¬ (f.base64.getD "" = ""))
    (hm0 : ¬ (f.mimeType.getD "" = ""))
    (hm : f.mimeType.getD "" ∉ SUPPORTED_MIME_TYPES) :
    ask_question codec p = Except.ok (buildResponse codec p) ∧
    unsupportedMsg f ∈ (buildResponse codec p).file_errors ∧
    strContainsSub (buildResponse codec p).prompt_text (unsupportedMsg f) = true ∧
    (∀ st : ProcState, processFile codec st (f, o) =
      { st with file_errors := st.file_errors ++ [unsupportedMsg f] }) := by
  have hne : (payloadFiles p).isEmpty = false := by
    rw [hfiles]
    cases pre <;> rfl
  have hok : ask_question codec p = Except.ok (buildResponse codec p) := by
    unfold ask_question
    rw [if_neg (fun hn => hn hb)]
    rw [if_neg (fun hc => by rw [hne] at hc; exact Bool.false_ne_true hc.2)]
  have hstep : ∀ st : ProcState, processFile codec st (f, o) =
      { st with file_errors := st.file_errors ++ [unsupportedMsg f] } :=
    fun st => processFile_unsupported codec st f o hb64 hm0 hm
  have hmem : unsupportedMsg f ∈
      (processFiles codec (initState p) (payloadFiles p)).file_errors := by
    rw [hfiles, processFiles_append]
    have hcons : processFiles codec (processFiles codec (initState p) pre)
        ((f, o) :: post) =
        processFiles codec
          (processFile codec (processFiles codec (initState p) pre) (f, o)) post :=
      rfl
    rw [hcons, hstep]
    obtain ⟨t, ht⟩ := processFiles_errors_ext codec post
      { processFiles codec (initState p) pre with
          file_errors := (processFiles codec (initState p) pre).file_errors ++
            [unsupportedMsg f] }
    rw [ht]
    simp
  have hns : (processFiles codec (initState p) (payloadFiles p)).file_errors.isEmpty
      = false := by
    cases hcase : (processFiles codec (initState p) (payloadFiles p)).file_errors with
    | nil => rw [hcase] at hmem; cases hmem
    | cons a l => rfl
  have hfp : finalPrompt codec p =
      (processFiles codec (initState p) (payloadFiles p)).prompt_text ++
        "\n\n[Note: Some files could not be processed: " ++
        joinSemicolon (processFiles codec (initState p) (payloadFiles p)).file_errors
        ++ "]" := by
    simp only [finalPrompt]
    rw [hns]
    simp
  refine ⟨hok, hmem, ?_, hstep⟩
  show strContainsSub (finalPrompt codec p) (unsupportedMsg f) = true
  rw [hfp]
  apply strContainsSub_append_left
  apply strContainsSub_append_right
  exact joinSemicolon_contains _ _ hmem

/-- Codec oracle faithful to base64 for the tiny inputs used in the
witnesses: the empty payload decodes to zero bytes, aGk= to the utf-8
bytes of hi, anything else to zero bytes. -/
def codecB64 : Codec :=
  ⟨fun s => Except.ok (if s = "aGk=" then [104, 105] else []),
   fun bs => if bs = [104, 105] then "hi" else ""⟩

/-- A small loop state used to probe single iterations. -/
def stProbe : ProcState := ⟨[], [], [], "P", []⟩

def fileZip : FileEntry := ⟨some "data.zip", some "application/zip", some "UEsF"⟩

def payloadZip : Payload :=
  ⟨some "SSLC", none, none, none, some "Check this", none,
   some [(fileZip, oracleImg)]⟩

/-- Witness for C5 (amended): one zip attachment with a non-empty
payload; the request succeeds, the error string is recorded and the
final prompt names the file as unsupported. -/
theorem unsupported_mime_recorded_witness :
    ask_question codecB64 payloadZip = Except.ok (buildResponse codecB64 payloadZip) ∧
    unsupportedMsg fileZip ∈ (buildResponse codecB64 payloadZip).file_errors ∧
    strContainsSub (buildResponse codecB64 payloadZip).prompt_text
      (unsupportedMsg fileZip) = true := by
  have h := unsupported_mime_recorded codecB64 payloadZip [] [] fileZip oracleImg
    (by decide) rfl (by decide) (by decide) (by decide)
  exact ⟨h.1, h.2.1, h.2.2.1⟩

def fileZipEmpty : FileEntry := ⟨some "archive", some "application/zip", some ""⟩

/-- Counterexample to C5 as stated: an attachment with a non-empty
unsupported mime type but an EMPTY base64 payload is skipped silently
before the mime check: no error string is recorded, the state is
unchanged and the prompt carries no note about the file. -/
theorem unsupported_mime_silent_skip :
    fileZipEmpty.mimeType = some "application/zip" ∧
    ("application/zip" ∈ SUPPORTED_MIME_TYPES → False) ∧
    processFile codecB64 stProbe (fileZipEmpty, oracleImg) = stProbe ∧
    stProbe.file_errors = [] := by
  exact ⟨rfl, by decide, by decide, rfl⟩

/-- Claim C6 (amended): a text/plain attachment with a NON-EMPTY,
decodable base64 payload has its bytes decoded by the total
replacing utf-8 decoder, the decoded text appears verbatim between the
delimiter markers inside the prompt text, and the attachment
contributes no separate Content Part, no handle and no error. -/
theorem text_plain_embedded (codec : Codec) (st : ProcState)
    (f : FileEntry) (o : FileOracle) (raw : List Nat)
    (hm : f.mimeType.getD "" = "text/plain")
    (hb64 : ¬ (f.base64.getD "" = ""))
    (hdec : codec.b64decode (f.base64.getD "") = Except.ok raw) :
    processFile codec st (f, o) =
      { st with prompt_text := st.prompt_text ++
          "\n\n--- Content of " ++ f.name.getD "file" ++ " ---\n" ++
          codec.utf8decodeReplace raw ++
          "\n--- End of " ++ f.name.getD "file" ++ " ---" } ∧
    (processFile codec st (f, o)).contents = st.contents ∧
    (processFile codec st (f, o)).uploaded_file_uris = st.uploaded_file_uris ∧
    (processFile codec st (f, o)).file_errors = st.file_errors ∧
    strContainsSub (processFile codec st (f, o)).prompt_text
      (codec.utf8decodeReplace raw) = true := by
  have h := processFile_text_plain codec st f o raw hm hb64 hdec
  refine ⟨h, by rw [h], by rw [h], by rw [h], ?_⟩
  rw [h]
  show strContainsSub (st.prompt_text ++ "\n\n--- Content of " ++
      f.name.getD "file" ++ " ---\n" ++ codec.utf8decodeReplace raw ++
      "\n--- End of " ++ f.name.getD "file" ++ " ---")
      (codec.utf8decodeReplace raw) = true
  apply strContainsSub_append_left
  apply strContainsSub_append_left
  apply strContainsSub_append_left
  apply strContainsSub_append_right
  exact strContainsSub_self _

def fileText : FileEntry := ⟨some "notes.txt", some "text/plain", some "aGk="⟩

/-- Witness for C6 (amended): the file notes.txt with payload aGk=
splices hi between the delimiter markers and adds no Content Part. -/
theorem text_plain_embedded_witness :
    processFile codecB64 stProbe (fileText, oracleImg) =
      { stProbe with prompt_text := "P" ++
          "\n\n--- Content of " ++ "notes.txt" ++ " ---\n" ++ "hi" ++
          "\n--- End of " ++ "notes.txt" ++ " ---" } ∧
    (processFile codecB64 stProbe (fileText, oracleImg)).contents = [] := by
  have h := text_plain_embedded codecB64 stProbe fileText oracleImg [104, 105]
    rfl (by decide) rfl
  refine ⟨?_, h.2.1⟩
  rw [h.1]
  decide

def fileTextEmpty : FileEntry := ⟨some "notes.txt", some "text/plain", some ""⟩

/-- Counterexample to C6 as stated: the empty base64 payload is
decodable (it decodes to zero bytes), yet the attachment is skipped
before decoding: the prompt gains no delimiter block at all. -/
theorem text_plain_empty_payload_skipped :
    fileTextEmpty.mimeType = some "text/plain" ∧
    codecB64.b64decode (fileTextEmpty.base64.getD "") = Except.ok [] ∧
    processFile codecB64 stProbe (fileTextEmpty, oracleImg) = stProbe ∧
    strContainsSub stProbe.prompt_text "--- Content of notes.txt ---" = false := by
  exact ⟨rfl, rfl, by decide, by decide⟩

/-- Claim C7: a PDF whose remote upload reaches the FAILED processing
state does not abort the request: the polling loop raises, the helper
wraps the exception, and the handler falls back to inlining the raw
bytes as a Content Part; only if that inlining also fails is a
non-fatal error recorded. -/
theorem pdf_failed_state_falls_back (codec : Codec) (st : ProcState)
    (f : FileEntry) (o : FileOracle) (up : RemoteFile) (raw : List Nat)
    (hm : f.mimeType.getD "" = "application/pdf")
    (hb64 : ¬ (f.base64.getD "" = ""))
    (hdec : codec.b64decode (f.base64.getD "") = Except.ok raw)
    (hok : o.uploadRes = Except.ok up)
    (hpoll : pollFile o.getSeq (f.name.getD "file") up 0 max_attempts =
      Except.error ("File processing failed: " ++ f.name.getD "file")) :
    upload_file_to_gemini o.uploadRes o.getSeq (f.name.getD "file") =
      Except.error ("Failed to upload " ++ f.name.getD "file" ++ ": " ++
        ("File processing failed: " ++ f.name.getD "file")) ∧
    (o.inlineRes = Except.ok () → processFile codec st (f, o) =
      { st with
          contents := st.contents ++ [ContentPart.from_bytes raw "application/pdf"]
          upload_calls := st.upload_calls ++ [f.name.getD "file"] }) ∧
    (∀ e2, o.inlineRes = Except.error e2 → processFile codec st (f, o) =
      { st with
          file_errors := st.file_errors ++
            ["Could not process PDF \x27" ++ f.name.getD "file" ++ "\x27: " ++
              ("Failed to upload " ++ f.name.getD "file" ++ ": " ++
                ("File processing failed: " ++ f.name.getD "file"))]
          upload_calls := st.upload_calls ++ [f.name.getD "file"] }) ∧
    (∀ (g : Nat → RemoteFile) (nm : String) (fl : RemoteFile) (i fuel : Nat),
        fl.state = "FAILED" →
        pollFile g nm fl i (fuel + 1) =
          Except.error ("File processing failed: " ++ nm)) := by
  have hup : upload_file_to_gemini o.uploadRes o.getSeq (f.name.getD "file") =
      Except.error ("Failed to upload " ++ f.name.getD "file" ++ ": " ++
        ("File processing failed: " ++ f.name.getD "file")) := by
    unfold upload_file_to_gemini
    rw [hok]
    show (match pollFile o.getSeq (f.name.getD "file") up 0 max_attempts with
      | Except.ok r => Except.ok r
      | Except.error e =>
          Except.error ("Failed to upload " ++ f.name.getD "file" ++ ": " ++ e)) = _
    rw [hpoll]
  refine ⟨hup, ?_, ?_, ?_⟩
  · intro hin
    have h := processFile_pdf_upload_error codec st f o raw _ hm hb64 hdec hup
    rw [h, hin]
  · intro e2 hin
    have h := processFile_pdf_upload_error codec st f o raw _ hm hb64 hdec hup
    rw [h, hin]
  · intro g nm fl i fuel hfl
    simp [pollFile, hfl]

def oracleFailedUp : FileOracle :=
  ⟨Except.ok ⟨"gs://f", "files/bad", "FAILED"⟩,
   fun _ => ⟨"gs://f", "files/bad", "FAILED"⟩, Except.ok ()⟩

/-- Witness for C7: an upload whose file object is in the FAILED state
falls back to an inline Content Part. -/
theorem pdf_failed_state_falls_back_witness :
    processFile codecB64 stProbe (fileW, oracleFailedUp) =
      { stProbe with
          contents := stProbe.contents ++ [ContentPart.from_bytes [] "application/pdf"]
          upload_calls := stProbe.upload_calls ++ ["doc.pdf"] } := by
  have h := (pdf_failed_state_falls_back codecB64 stProbe fileW oracleFailedUp
      ⟨"gs://f", "files/bad", "FAILED"⟩ [] rfl (by decide) rfl rfl (by rfl)).2.1 rfl
  exact h

/-- Claim C8 (amended): the inline-bytes fallback is reached on EVERY
failure of the upload helper, the polling timeout included: the
timeout raises an exception that the caller catches exactly like the
raw upload failure, so a PDF whose upload polling times out IS inlined
as a fallback Content Part (when inlining itself succeeds).  The
second conjunct exhibits the timeout error raised when the attempt
budget is exhausted. -/
theorem upload_error_falls_back (codec : Codec) (st : ProcState)
    (f : FileEntry) (o : FileOracle) (raw : List Nat) (e : String)
    (hm : f.mimeType.getD "" = "application/pdf")
    (hb64 : ¬ (f.base64.getD "" = ""))
    (hdec : codec.b64decode (f.base64.getD "") = Except.ok raw)
    (hup : upload_file_to_gemini o.uploadRes o.getSeq (f.name.getD "file") =
      Except.error e)
    (hin : o.inlineRes = Except.ok ()) :
    processFile codec st (f, o) =
      { st with
          contents := st.contents ++ [ContentPart.from_bytes raw "application/pdf"]
          upload_calls := st.upload_calls ++ [f.name.getD "file"] } ∧
    (∀ (g : Nat → RemoteFile) (nm : String) (fl : RemoteFile) (i : Nat),
        pollFile g nm fl i 0 =
          Except.error ("File processing timeout for: " ++ nm)) := by
  constructor
  · have h := processFile_pdf_upload_error codec st f o raw e hm hb64 hdec hup
    rw [h, hin]
  · intro g nm fl i
    rfl

def oracleTimeout : FileOracle :=
  ⟨Except.ok ⟨"gs://t", "files/slow", "PROCESSING"⟩,
   fun _ => ⟨"gs://t", "files/slow", "PROCESSING"⟩, Except.ok ()⟩

/-- Witness for C8 (amended): the timeout error from a stuck
PROCESSING upload triggers the inline fallback. -/
theorem upload_error_falls_back_witness :
    processFile codecB64 stProbe (fileW, oracleTimeout) =
      { stProbe with
          contents := stProbe.contents ++ [ContentPart.from_bytes [] "application/pdf"]
          upload_calls := stProbe.upload_calls ++ ["doc.pdf"] } :=
  (upload_error_falls_back codecB64 stProbe fileW oracleTimeout []
    ("Failed to upload " ++ "doc.pdf" ++ ": " ++
      ("File processing timeout for: " ++ "doc.pdf"))
    rfl (by decide) rfl (by rfl) rfl).1

/-- Counterexample to C8 as stated: a PDF whose upload polling stays
PROCESSING for all 30 attempts raises the timeout exception, and the
raw bytes ARE inlined as a fallback Content Part, so the fallback is
reached by the timeout path too. -/
theorem timeout_reaches_inline_fallback :
    upload_file_to_gemini oracleTimeout.uploadRes oracleTimeout.getSeq "doc.pdf" =
      Except.error
        ("Failed to upload " ++ "doc.pdf" ++ ": " ++
          ("File processing timeout for: " ++ "doc.pdf")) ∧
    processFile codecB64 stProbe (fileW, oracleTimeout) =
      { stProbe with
          contents := [ContentPart.from_bytes [] "application/pdf"]
          upload_calls := ["doc.pdf"] } := by
  exact ⟨rfl, by decide⟩
